import Mathlib

/-! Verification of the CSS parser (Go) against its specification.

Shallow embedding of the repository's source (`src/unnamed/part_000`): the
byte-stream decoder, the input-preprocessing filter, the tokenizer, the
token stream (cursor), and the declaration/component-value part of the
parser.  Go `rune`s are modelled as `Int` (the EOF sentinel is `-1`),
byte buffers as `List Nat`, and Go's `(value, ok)` / `log.Fatal` /
`panic` result shapes as an explicit result type `Res`.  Loops are
modelled as fuel-indexed recursions; `Res.oof` marks fuel exhaustion and
is distinguished from `Res.fatal` (a `log.Fatal`/`panic` abort).
-/

set_option maxRecDepth 10000

namespace CssParser

/-! Section: Code-point constants (from the `const` block of the source) -/

def EOF_CHAR : Int := -1
def NULL_CHAR : Int := 0x00
def REPLACEMENT_CHAR : Int := 0xFFFD
def LINE_FEED_CHAR : Int := 0x0A
def CARRIAGE_RETURN_CHAR : Int := 0x0D
def FORM_FEED_CHAR : Int := 0x0C
def FORWARD_SLASH_CHAR : Int := 0x2F
def BACKWARD_SLASH_CHAR : Int := 0x5C
def ASTERISK_CHAR : Int := 0x2A
def TAB_CHAR : Int := 0x09
def SPACE_CHAR : Int := 0x20
def QUOTATION_MARK_CHAR : Int := 0x22
def APOSTROPHE_CHAR : Int := 0x27
def NUMBER_SIGN_CHAR : Int := 0x23
def LOW_LINE_CHAR : Int := 0x5F
def HYPHEN_MINUS_CHAR : Int := 0x2D
def OPEN_PAREN_CHAR : Int := 0x28
def CLOSE_PAREN_CHAR : Int := 0x29
def OPEN_SQUARE_CHAR : Int := 0x5B
def CLOSE_SQUARE_CHAR : Int := 0x5D
def OPEN_CURLY_CHAR : Int := 0x7B
def CLOSE_CURLY_CHAR : Int := 0x7D
def PLUS_SIGN_CHAR : Int := 0x2B
def FULL_STOP_CHAR : Int := 0x2E
def LOWER_E_CHAR : Int := 0x65
def UPPER_E_CHAR : Int := 0x45
def LOWER_U_CHAR : Int := 0x75
def UPPER_U_CHAR : Int := 0x55
def PERCENT_SIGN_CHAR : Int := 0x25
def COMMA_CHAR : Int := 0x2C
def GREATER_THAN_CHAR : Int := 0x3E
def LESS_THAN_CHAR : Int := 0x3C
def BACKSPACE_CHAR : Int := 0x08
def LINE_TABULATION_CHAR : Int := 0x0B
def SHIFT_OUT_CHAR : Int := 0x0E
def INFORMATION_SEPARATOR_CHAR : Int := 0x1F
def DELETE_CHAR : Int := 0x7F
def COLON_CHAR : Int := 0x3A
def SEMICOLON_CHAR : Int := 0x3B
def EXCLAMATON_MARK_CHAR : Int := 0x21
def AT_CHAR : Int := 0x40
def MAX_CODE_POINT : Int := 0x10FFFF

/-! Section: Result type

Go signals unrecoverable conditions with `log.Fatal`/`panic` (modelled
as `Res.fatal`) and the embedding's fuel exhaustion is `Res.oof`
(unreachable for sufficient fuel, which the lemmas establish where a
claim needs it). -/

inductive Res (α : Type) where
  | ok : α → Res α
  | fatal : Res α
  | oof : Res α
  deriving DecidableEq, Repr

/-! Section: Character class predicates (`is_newline` … `are_number`) -/

-- is_newline: only LF, since CR/FF are normalized away by preprocessing.
def is_newline (char : Int) : Bool := char == LINE_FEED_CHAR

def is_whitespace (char : Int) : Bool :=
  is_newline char || char == TAB_CHAR || char == SPACE_CHAR

def is_digit (char : Int) : Bool := char ≥ 0x30 && char ≤ 0x39

def is_hex_digit (char : Int) : Bool :=
  is_digit char || (char ≥ 0x41 && char ≤ 0x46) || (char ≥ 0x61 && char ≤ 0x66)

def is_uppercase (char : Int) : Bool := char ≥ 0x41 && char ≤ 0x5A

def is_lowercase (char : Int) : Bool := char ≥ 0x61 && char ≤ 0x7A

def is_letter (char : Int) : Bool := is_uppercase char || is_lowercase char

def is_non_ascii (char : Int) : Bool :=
  char == 0xB7 || char == 0x200C || char == 0x200D || char == 0x203F || char == 0x2040 ||
  (char ≥ 0xC0 && char ≤ 0xD6) ||
  (char ≥ 0xD8 && char ≤ 0xF6) ||
  (char ≥ 0xF8 && char ≤ 0x37D) ||
  (char ≥ 0x37F && char ≤ 0x1FFF) ||
  (char ≥ 0x2070 && char ≤ 0x218F) ||
  (char ≥ 0x2C00 && char ≤ 0x2FEF) ||
  (char ≥ 0x3001 && char ≤ 0xD7FF) ||
  (char ≥ 0xF900 && char ≤ 0xFDCF) ||
  (char ≥ 0xFDF0 && char ≤ 0xFFFD) ||
  char ≥ 0x10000

def is_ident_start (char : Int) : Bool :=
  is_letter char || is_non_ascii char || char == LOW_LINE_CHAR

def is_ident (char : Int) : Bool :=
  is_ident_start char || is_digit char || char == HYPHEN_MINUS_CHAR

def is_non_printable (char : Int) : Bool :=
  (char ≥ NULL_CHAR && char ≤ BACKSPACE_CHAR) ||
  char == LINE_TABULATION_CHAR ||
  (char ≥ SHIFT_OUT_CHAR && char ≤ INFORMATION_SEPARATOR_CHAR) ||
  char == DELETE_CHAR

def are_valid_escape (first second : Int) : Bool :=
  if first != BACKWARD_SLASH_CHAR then false
  else !(is_newline second)

def are_start_ident (first second third : Int) : Bool :=
  if first == HYPHEN_MINUS_CHAR then
    is_ident_start second || second == HYPHEN_MINUS_CHAR || are_valid_escape second third
  else if is_ident_start first then true
  else if first == BACKWARD_SLASH_CHAR then are_valid_escape first second
  else false

def are_number (first second third : Int) : Bool :=
  if first == PLUS_SIGN_CHAR || first == HYPHEN_MINUS_CHAR then
    if is_digit second then true
    else second == FULL_STOP_CHAR && is_digit third
  else if first == FULL_STOP_CHAR then is_digit second
  else if is_digit first then true
  else false

/-! Section: Decoder (`decode_byte_stream`, `preprocess_input_stream`)

`is_multibyte_start`/`is_multibyte_body` are the marker-bit tests of the
source; on `Nat` bytes, `b &&& 0xC0 == 0xC0` is `0xC0 ≤ b % 256` for
bytes `< 256`, but we keep the masking form. -/

def UTF_8_MULTIBYTE_START_MARKER : Nat := 0xC0
def UTF_8_MULTIBYTE_BODY_MARKER : Nat := 0x80

def is_multibyte_start (bite : Nat) : Bool :=
  bite &&& UTF_8_MULTIBYTE_START_MARKER == UTF_8_MULTIBYTE_START_MARKER

def is_multibyte_body (bite : Nat) : Bool :=
  bite &&& UTF_8_MULTIBYTE_BODY_MARKER == UTF_8_MULTIBYTE_BODY_MARKER

/-- Embedding of Go's `utf8.DecodeRune` on the gathered byte group: decode
the first UTF-8 sequence of the list, returning `RuneError` (U+FFFD) on
any invalid/short/overlong/surrogate/out-of-range sequence, and ignoring
any extra bytes after the first decoded sequence (as `DecodeRune` does).
The bit-masking of the reference (`b0 &&& 0x1F` etc.) is written as
subtraction, equal to the mask under the range checks already made. -/
def decode_rune : List Nat → Int
  | [] => REPLACEMENT_CHAR
  | b0 :: rest =>
    if b0 < 0x80 then (b0 : Int)
    else if b0 < 0xC2 then REPLACEMENT_CHAR
    else if b0 ≤ 0xDF then
      match rest with
      | b1 :: _ =>
        if 0x80 ≤ b1 ∧ b1 ≤ 0xBF then
          ((b0 - 0xC0) * 64 + (b1 - 0x80) : Nat)
        else REPLACEMENT_CHAR
      | [] => REPLACEMENT_CHAR
    else if b0 ≤ 0xEF then
      match rest with
      | b1 :: b2 :: _ =>
        let lo := if b0 = 0xE0 then 0xA0 else 0x80
        let hi := if b0 = 0xED then 0x9F else 0xBF
        if lo ≤ b1 ∧ b1 ≤ hi ∧ 0x80 ≤ b2 ∧ b2 ≤ 0xBF then
          ((b0 - 0xE0) * 4096 + (b1 - 0x80) * 64 + (b2 - 0x80) : Nat)
        else REPLACEMENT_CHAR
      | _ => REPLACEMENT_CHAR
    else if b0 ≤ 0xF4 then
      match rest with
      | b1 :: b2 :: b3 :: _ =>
        let lo := if b0 = 0xF0 then 0x90 else 0x80
        let hi := if b0 = 0xF4 then 0x8F else 0xBF
        if lo ≤ b1 ∧ b1 ≤ hi ∧ 0x80 ≤ b2 ∧ b2 ≤ 0xBF ∧ 0x80 ≤ b3 ∧ b3 ≤ 0xBF then
          ((b0 - 0xF0) * 262144 + (b1 - 0x80) * 4096 + (b2 - 0x80) * 64 + (b3 - 0x80) : Nat)
        else REPLACEMENT_CHAR
      | _ => REPLACEMENT_CHAR
    else REPLACEMENT_CHAR

/-- One grouping step of `decode_byte_stream`: the lead byte plus the run
of following marker-`10xxxxxx`-bit bytes (gathered only when the lead
byte has the multibyte-start marker). -/
def byte_group (b : Nat) (rest : List Nat) : List Nat :=
  if is_multibyte_start b then b :: rest.takeWhile is_multibyte_body else [b]

def byte_group_rest (b : Nat) (rest : List Nat) : List Nat :=
  if is_multibyte_start b then rest.dropWhile is_multibyte_body else rest

/-- The loop of `decode_byte_stream`, fuel-indexed (the wrapper passes
`bytes.length`, always sufficient since each step consumes the lead
byte).  `none` models the `log.Fatalf` abort on `utf8.RuneError` (which
also fires for a literal U+FFFD in the input, exactly as in the source,
since Go compares the decoded rune against `utf8.RuneError`). -/
def decode_loop : Nat → List Nat → Option (List Int)
  | _, [] => some []
  | 0, _ :: _ => none
  | fuel + 1, b :: rest =>
    let char := decode_rune (byte_group b rest)
    if char = REPLACEMENT_CHAR then none
    else (decode_loop fuel (byte_group_rest b rest)).map (char :: ·)

/-- `decode_byte_stream(bytes, UTF_8)` (the only encoding; any other
requested encoding is `log.Fatalf`, not modelled since the program always
passes `UTF_8`). -/
def decode_byte_stream (bytes : List Nat) : Option (List Int) :=
  decode_loop bytes.length bytes

/-- The filtering loop of `preprocess_input_stream`: CR and FF become LF
(a CR directly followed by LF consumes the LF too), NUL becomes U+FFFD,
everything else is kept. -/
def filter_loop : Nat → List Int → List Int
  | _, [] => []
  | 0, _ :: _ => []
  | fuel + 1, c :: rest =>
    if c = CARRIAGE_RETURN_CHAR then
      match rest with
      | d :: rest' =>
        if d = LINE_FEED_CHAR then LINE_FEED_CHAR :: filter_loop fuel rest'
        else LINE_FEED_CHAR :: filter_loop fuel (d :: rest')
      | [] => [LINE_FEED_CHAR]
    else if c = FORM_FEED_CHAR then LINE_FEED_CHAR :: filter_loop fuel rest
    else if c = NULL_CHAR then REPLACEMENT_CHAR :: filter_loop fuel rest
    else c :: filter_loop fuel rest

def filter_code_points (runes : List Int) : List Int :=
  filter_loop runes.length runes

/-- `preprocess_input_stream`: decode as UTF-8 (fatal on invalid input,
i.e. `none`), then filter the code points. -/
def preprocess_input_stream (bytes : List Nat) : Option (List Int) :=
  (decode_byte_stream bytes).map filter_code_points

/-! Section: Lemmas about the decoder (claim C5) -/

/-- `utf8.DecodeRune` never yields a surrogate: the `0xED` accept range is
capped at second byte `0x9F`, everything else lands outside `D800–DFFF`. -/
lemma decode_rune_not_surrogate (g : List Nat) :
    ¬(0xD800 ≤ decode_rune g ∧ decode_rune g ≤ 0xDFFF) := by
  intro hsur
  rcases g with _ | ⟨b0, _ | ⟨b1, _ | ⟨b2, _ | ⟨b3, rest⟩⟩⟩⟩ <;>
    (simp only [decode_rune, REPLACEMENT_CHAR] at hsur
     first
       | omega
       | (split_ifs at hsur <;> omega))

/-- Every code point produced by the decode loop is a non-surrogate. -/
lemma decode_loop_no_surrogate :
    ∀ (fuel : Nat) (bs : List Nat) (out : List Int),
      decode_loop fuel bs = some out → ∀ r ∈ out, ¬(0xD800 ≤ r ∧ r ≤ 0xDFFF) := by
  intro fuel
  induction fuel with
  | zero =>
    intro bs out h r hr
    cases bs with
    | nil => simp only [decode_loop, Option.some.injEq] at h; subst h; simp at hr
    | cons b rest => simp [decode_loop] at h
  | succ n ih =>
    intro bs out h r hr
    cases bs with
    | nil => simp only [decode_loop, Option.some.injEq] at h; subst h; simp at hr
    | cons b rest =>
      simp only [decode_loop] at h
      split_ifs at h with hch
      rcases hmap : decode_loop n (byte_group_rest b rest) with _ | out'
      · rw [hmap] at h; simp at h
      · rw [hmap] at h
        simp only [Option.map_some', Option.some.injEq] at h
        subst h
        rcases List.mem_cons.mp hr with hr | hr
        · subst hr; exact decode_rune_not_surrogate _
        · exact ih _ _ hmap r hr

/-- Every code point in the filter's output is LF, U+FFFD, or an input
code point that was none of CR, FF, NUL. -/
lemma filter_loop_mem :
    ∀ (fuel : Nat) (l : List Int) (c : Int), c ∈ filter_loop fuel l →
      c = LINE_FEED_CHAR ∨ c = REPLACEMENT_CHAR ∨
        (c ∈ l ∧ c ≠ CARRIAGE_RETURN_CHAR ∧ c ≠ FORM_FEED_CHAR ∧ c ≠ NULL_CHAR) := by
  intro fuel
  induction fuel with
  | zero => intro l c h; cases l <;> simp [filter_loop] at h
  | succ n ih =>
    intro l c h
    cases l with
    | nil => simp [filter_loop] at h
    | cons x rest =>
      simp only [filter_loop] at h
      split_ifs at h with hcr hff hnul
      · -- CR case
        cases rest with
        | nil => simp only [List.mem_singleton] at h; exact Or.inl h
        | cons d rest' =>
          dsimp only at h
          split_ifs at h with hd <;>
          · rcases List.mem_cons.mp h with h | h
            · exact Or.inl h
            · rcases ih _ _ h with h | h | ⟨hm, hx⟩
              · exact Or.inl h
              · exact Or.inr (Or.inl h)
              · exact Or.inr (Or.inr ⟨by simp [List.mem_cons] at hm ⊢; tauto, hx⟩)
      · rcases List.mem_cons.mp h with h | h
        · exact Or.inl h
        · rcases ih _ _ h with h | h | ⟨hm, hx⟩
          · exact Or.inl h
          · exact Or.inr (Or.inl h)
          · exact Or.inr (Or.inr ⟨List.mem_cons_of_mem _ hm, hx⟩)
      · rcases List.mem_cons.mp h with h | h
        · exact Or.inr (Or.inl h)
        · rcases ih _ _ h with h | h | ⟨hm, hx⟩
          · exact Or.inl h
          · exact Or.inr (Or.inl h)
          · exact Or.inr (Or.inr ⟨List.mem_cons_of_mem _ hm, hx⟩)
      · rcases List.mem_cons.mp h with h | h
        · exact Or.inr (Or.inr ⟨by simp [h], by simp [h, hcr, hff, hnul]⟩)
        · rcases ih _ _ h with h | h | ⟨hm, hx⟩
          · exact Or.inl h
          · exact Or.inr (Or.inl h)
          · exact Or.inr (Or.inr ⟨List.mem_cons_of_mem _ hm, hx⟩)

/-- C5 (confirmed).  For every byte input the decoder accepts, the
code-point sequence returned by `preprocess_input_stream` contains no
CR, no FF, no NUL, and no surrogate code point: CR/FF/CR-LF are replaced
by LF and NUL by U+FFFD in the filter, while surrogates can never reach
the filter because `decode_byte_stream` (via `utf8.DecodeRune`) rejects
surrogate byte sequences as fatal errors. -/
theorem preprocess_input_stream_filtered :
    ∀ (bytes : List Nat) (out : List Int), preprocess_input_stream bytes = some out →
      ∀ c ∈ out, c ≠ CARRIAGE_RETURN_CHAR ∧ c ≠ FORM_FEED_CHAR ∧ c ≠ NULL_CHAR ∧
        ¬(0xD800 ≤ c ∧ c ≤ 0xDFFF) := by
  intro bytes out h c hc
  simp only [preprocess_input_stream] at h
  rcases hdec : decode_byte_stream bytes with _ | runes
  · rw [hdec] at h; simp at h
  rw [hdec] at h
  simp only [Option.map_some', Option.some.injEq] at h
  subst h
  rcases filter_loop_mem _ _ _ hc with h | h | ⟨hm, h1, h2, h3⟩
  · subst h
    simp only [LINE_FEED_CHAR, CARRIAGE_RETURN_CHAR, FORM_FEED_CHAR, NULL_CHAR]
    omega
  · subst h
    simp only [REPLACEMENT_CHAR, CARRIAGE_RETURN_CHAR, FORM_FEED_CHAR, NULL_CHAR]
    omega
  · exact ⟨h1, h2, h3, decode_loop_no_surrogate _ _ _ hdec c hm⟩

/-- Witness for C5 at the concrete input `[0x61, CR, LF]`, whose
preprocessing yields `[0x61, LF]`. -/
theorem preprocess_input_stream_filtered_witness :
    (97 : Int) ≠ CARRIAGE_RETURN_CHAR ∧ (97 : Int) ≠ FORM_FEED_CHAR ∧
      (97 : Int) ≠ NULL_CHAR ∧ ¬(0xD800 ≤ (97 : Int) ∧ (97 : Int) ≤ 0xDFFF) :=
  preprocess_input_stream_filtered [97, 13, 10] [97, 10] (by rfl) 97 (by simp)

/-! Section: Tokens -/

inductive TokenKind where
  | IDENT_TOKEN | FUNCTION_TOKEN | AT_KEYWORD_TOKEN | HASH_TOKEN
  | STRING_TOKEN | BAD_STRING_TOKEN | URL_TOKEN | BAD_URL_TOKEN
  | DELIM_TOKEN | NUMBER_TOKEN | PERCENTAGE_TOKEN | DIMENSION_TOKEN
  | UNICODE_RANGE_TOKEN | WHITESPACE_TOKEN | CDO_TOKEN | CDC_TOKEN
  | COLON_TOKEN | SEMICOLON_TOKEN | COMMA_TOKEN
  | OPEN_SQUARE_TOKEN | CLOSE_SQUARE_TOKEN
  | OPEN_PAREN_TOKEN | CLOSE_PAREN_TOKEN
  | OPEN_CURLY_TOKEN | CLOSE_CURLY_TOKEN | EOF_TOKEN
  deriving DecidableEq, Repr

inductive HashFlag where
  | HASH_UNRESTRICTED | HASH_ID
  deriving DecidableEq, Repr

inductive TypeFlag where
  | TYPE_INTEGER | TYPE_NUMBER
  deriving DecidableEq, Repr

/-- `mirror`, partial on purpose: the source panics on a non-opening
kind; `none` models that panic. -/
def mirror : TokenKind → Option TokenKind
  | .OPEN_SQUARE_TOKEN => some .CLOSE_SQUARE_TOKEN
  | .OPEN_PAREN_TOKEN => some .CLOSE_PAREN_TOKEN
  | .OPEN_CURLY_TOKEN => some .CLOSE_CURLY_TOKEN
  | _ => none

/-- The `Token` struct.  Field defaults are the Go zero values (so a
bare `Token{kind: …}` literal in the source is `{ kind := … }` here).
`numeric` is Go `float64`; it is modelled as an exact rational, since no
claim settled here depends on IEEE-754 rounding (the one that would,
C6, is reported separately). -/
structure Token where
  kind : TokenKind := .IDENT_TOKEN
  value : List Int := []
  numeric : ℚ := 0
  sign : List Int := []
  hash_flag : HashFlag := .HASH_UNRESTRICTED
  type_flag : TypeFlag := .TYPE_INTEGER
  unit : List Int := []
  range_start : Int := 0
  range_end : Int := 0
  deriving DecidableEq, Repr

def eofToken : Token := { kind := .EOF_TOKEN }

instance : Inhabited Token := ⟨{}⟩

/-! Section: Stack and TokenStream -/

/-- The generic stack of the source: `Push` appends at the end of the
item list, `Pop` removes and returns the last item (or nothing). -/
structure Stack (T : Type) where
  items : List T
  deriving DecidableEq, Repr

def NewStack (T : Type) : Stack T := ⟨[]⟩

def Stack.IsEmpty {T} (s : Stack T) : Bool := s.items.isEmpty

def Stack.Push {T} (s : Stack T) (elem : T) : Stack T := ⟨s.items ++ [elem]⟩

def Stack.Pop {T} (s : Stack T) : Option T × Stack T :=
  match s.items.getLast? with
  | none => (none, s)
  | some elem => (some elem, ⟨s.items.dropLast⟩)

/-- The token stream.  The Go struct carries a `length` field set once
to `len(tokens)` and never updated separately; we use `tokens.length`
directly. -/
structure TokenStream where
  tokens : List Token
  index : Nat
  marked_indexes : Stack Nat
  deriving DecidableEq, Repr

def NewTokenStream (tokens : List Token) : TokenStream :=
  { tokens := tokens, index := 0, marked_indexes := NewStack Nat }

/-- `next_token`: the token at `index`, or an `<eof-token>` when the
index is out of bounds past the end of the list. -/
def TokenStream.next_token (ts : TokenStream) : Token :=
  if ts.tokens.length ≤ ts.index then eofToken
  else ts.tokens.getD ts.index eofToken

def TokenStream.empty (ts : TokenStream) : Bool :=
  ts.next_token.kind = .EOF_TOKEN

/-- `consume_token`: return the next token and increment `index`
(unconditionally, even on an empty stream). -/
def TokenStream.consume_token (ts : TokenStream) : Token × TokenStream :=
  (ts.next_token, { ts with index := ts.index + 1 })

/-- `discard_token`: increment `index` only if the stream is not empty. -/
def TokenStream.discard_token (ts : TokenStream) : TokenStream :=
  if ts.empty then ts else { ts with index := ts.index + 1 }

def TokenStream.mark (ts : TokenStream) : TokenStream :=
  { ts with marked_indexes := ts.marked_indexes.Push ts.index }

/-- `restore_mark`: pop from the marked indexes and, if something was
popped, set `index` to it (popping an empty stack leaves `index`
alone). -/
def TokenStream.restore_mark (ts : TokenStream) : TokenStream :=
  match ts.marked_indexes.Pop with
  | (some value, rest) => { ts with index := value, marked_indexes := rest }
  | (none, rest) => { ts with marked_indexes := rest }

/-- `discard_mark`: pop from the marked indexes and discard the value. -/
def TokenStream.discard_mark (ts : TokenStream) : TokenStream :=
  { ts with marked_indexes := ts.marked_indexes.Pop.2 }

/-- `discard_whitespace`: discard tokens while the next token is a
`<whitespace-token>` (fuel-indexed loop). -/
def TokenStream.discard_whitespace : Nat → TokenStream → Res TokenStream
  | 0, _ => .oof
  | fuel + 1, ts =>
    if ts.next_token.kind = .WHITESPACE_TOKEN then
      TokenStream.discard_whitespace fuel ts.discard_token
    else .ok ts

/-! Section: Claims C7 and C10 -/

lemma Stack.pop_push {T} (s : Stack T) (x : T) :
    (s.Push x).Pop = (some x, s) := by
  simp [Stack.Push, Stack.Pop, List.getLast?_concat, List.dropLast_concat]

/-- C7 (confirmed).  `mark(); restore_mark()` and `mark(); discard_mark()`
leave the cursor index unchanged; `restore_mark()` after `mark()` and any
cursor movement returns the whole stream to its pre-mark state (so nested
marks restore in LIFO order: the inner restore yields the outer mark's
index, the next restore the one below it); and `restore_mark()` on an
empty mark stack leaves the index unchanged. -/
theorem mark_restore_discipline :
    ∀ (ts : TokenStream) (j k : Nat),
      (ts.mark.restore_mark = ts) ∧
      (ts.mark.discard_mark = ts) ∧
      (ts.marked_indexes.items = [] → ts.restore_mark.index = ts.index) ∧
      ({ ts.mark with index := j }.restore_mark = ts) ∧
      ({ { ts.mark with index := j }.mark with index := k }.restore_mark
          = { ts.mark with index := j }) ∧
      ({ { ts.mark with index := j }.mark with index := k
          }.restore_mark.restore_mark = ts) := by
  intro ts j k
  refine ⟨?_, ?_, ?_, ?_, ?_, ?_⟩
  · simp [TokenStream.mark, TokenStream.restore_mark, Stack.pop_push]
  · simp [TokenStream.mark, TokenStream.discard_mark, Stack.pop_push]
  · intro h
    simp [TokenStream.restore_mark, Stack.Pop, h]
  · simp [TokenStream.mark, TokenStream.restore_mark, Stack.pop_push]
  · simp [TokenStream.mark, TokenStream.restore_mark, Stack.pop_push]
  · simp [TokenStream.mark, TokenStream.restore_mark, Stack.pop_push]

/-- Witness for C7 at a concrete stream with an empty mark stack. -/
theorem mark_restore_discipline_witness :
    (NewTokenStream []).mark.restore_mark = NewTokenStream [] ∧
      (NewTokenStream []).restore_mark.index = (NewTokenStream []).index := by
  refine ⟨(mark_restore_discipline (NewTokenStream []) 0 0).1, ?_⟩
  exact (mark_restore_discipline (NewTokenStream []) 0 0).2.2.1 (by rfl)

/-- C10 (confirmed).  The cursor is total at its public interface:
`next_token` on an out-of-bounds index returns the EOF token (and, being
a pure function of the stream, changes nothing); `consume_token` always
increments the index, even when the stream is already empty, so the index
can grow past the token-list length; `discard_token` alone refuses to
advance on an empty stream. -/
theorem token_stream_cursor_total :
    ∀ ts : TokenStream,
      (ts.tokens.length ≤ ts.index → ts.next_token = eofToken) ∧
      ((ts.consume_token).2.index = ts.index + 1) ∧
      (ts.empty = true → ts.discard_token = ts) := by
  intro ts
  refine ⟨?_, rfl, ?_⟩
  · intro h; simp [TokenStream.next_token, h]
  · intro h; simp [TokenStream.discard_token, h]

/-- Witness for C10 at the empty stream (already past the end at index
0): `next_token` is EOF, `consume_token` still bumps the index to 1, and
`discard_token` is the identity. -/
theorem token_stream_cursor_total_witness :
    ((NewTokenStream []).next_token = eofToken) ∧
      ((NewTokenStream []).consume_token).2.index = (NewTokenStream []).index + 1 ∧
      ((NewTokenStream []).discard_token = NewTokenStream []) :=
  ⟨(token_stream_cursor_total (NewTokenStream [])).1 (by simp [NewTokenStream]),
   (token_stream_cursor_total (NewTokenStream [])).2.1,
   (token_stream_cursor_total (NewTokenStream [])).2.2 (by rfl)⟩

/-! Section: Component values and declarations -/

inductive ComponentValueKind where
  | PRESERVED_TOKEN | FUNCTION | SIMPLE_BLOCK
  deriving DecidableEq, Repr

/-- The `ComponentValue` struct of the source: a kind tag plus the
fields `token` (preserved token / simple block's associated token),
`name` (function) and `value` (function / simple block), with Go zero
values in the fields a given kind leaves unset. -/
inductive ComponentValue where
  | mk (kind : ComponentValueKind) (token : Token) (name : List Int)
      (value : List ComponentValue)

def ComponentValue.kind : ComponentValue → ComponentValueKind
  | ⟨k, _, _, _⟩ => k

def ComponentValue.token : ComponentValue → Token
  | ⟨_, t, _, _⟩ => t

def ComponentValue.name : ComponentValue → List Int
  | ⟨_, _, n, _⟩ => n

def ComponentValue.value : ComponentValue → List ComponentValue
  | ⟨_, _, _, v⟩ => v

instance : Inhabited ComponentValue := ⟨⟨.PRESERVED_TOKEN, {}, [], []⟩⟩

/-! Decidable equality for the nested inductive `ComponentValue` (the
standard derive handler does not support nesting): a Boolean structural
equality plus its soundness and reflexivity. -/

mutual

def ComponentValue.beq : ComponentValue → ComponentValue → Bool
  | ⟨k1, t1, n1, v1⟩, ⟨k2, t2, n2, v2⟩ =>
    decide (k1 = k2) && decide (t1 = t2) && decide (n1 = n2) &&
      ComponentValue.beqList v1 v2

def ComponentValue.beqList : List ComponentValue → List ComponentValue → Bool
  | [], [] => true
  | a :: as, b :: bs => ComponentValue.beq a b && ComponentValue.beqList as bs
  | _, _ => false

end

mutual

theorem ComponentValue.beq_eq : ∀ a b : ComponentValue, ComponentValue.beq a b = true → a = b
  | ⟨k1, t1, n1, v1⟩, ⟨k2, t2, n2, v2⟩, h => by
    simp only [ComponentValue.beq, Bool.and_eq_true, decide_eq_true_eq] at h
    obtain ⟨⟨⟨h1, h2⟩, h3⟩, h4⟩ := h
    have hv := ComponentValue.beqList_eq v1 v2 h4
    subst h1; subst h2; subst h3; subst hv; rfl

theorem ComponentValue.beqList_eq :
    ∀ as bs : List ComponentValue, ComponentValue.beqList as bs = true → as = bs
  | [], [], _ => rfl
  | a :: as, b :: bs, h => by
    simp only [ComponentValue.beqList, Bool.and_eq_true] at h
    have h1 := ComponentValue.beq_eq a b h.1
    have h2 := ComponentValue.beqList_eq as bs h.2
    subst h1; subst h2; rfl
  | [], _ :: _, h => by simp [ComponentValue.beqList] at h
  | _ :: _, [], h => by simp [ComponentValue.beqList] at h

end

mutual

theorem ComponentValue.beq_refl : ∀ a : ComponentValue, ComponentValue.beq a a = true
  | ⟨k1, t1, n1, v1⟩ => by
    simpa [ComponentValue.beq] using ComponentValue.beqList_refl v1

theorem ComponentValue.beqList_refl :
    ∀ as : List ComponentValue, ComponentValue.beqList as as = true
  | [] => rfl
  | a :: as => by
    simp only [ComponentValue.beqList, Bool.and_eq_true]
    exact ⟨ComponentValue.beq_refl a, ComponentValue.beqList_refl as⟩

end

instance : DecidableEq ComponentValue := fun a b =>
  if h : ComponentValue.beq a b = true then .isTrue (ComponentValue.beq_eq a b h)
  else .isFalse (fun he => h (he ▸ ComponentValue.beq_refl a))

/-- A preserved-token component value, as built by the source's
`ComponentValue{kind: PRESERVED_TOKEN, token: …}` literals (all other
fields at their zero values). -/
def preservedCV (token : Token) : ComponentValue := ⟨.PRESERVED_TOKEN, token, [], []⟩

/-- The `Declaration` struct; defaults are Go zero values. -/
structure Declaration where
  name : List Int := []
  value : List ComponentValue := []
  important : Bool := false
  original_text : List Int := []
  deriving DecidableEq

/-- `Declaration.is_valid`: a `@TODO` extension hook, constantly true. -/
def Declaration.is_valid (_ : Declaration) : Bool := true

/-- `is_custom_property_name`: a `@TODO` stub, constantly false. -/
def is_custom_property_name (_ : List Int) : Bool := false

/-- `is_unicode_range`: a `@TODO` stub, constantly false. -/
def is_unicode_range (_ : List Int) : Bool := false

/-- `contains_non_empty_block`: a `@TODO` stub, constantly false. -/
def contains_non_empty_block (_ : List ComponentValue) : Bool := false

/-- ASCII case folding.  The source compares with `strings.EqualFold`
(Unicode simple folding); on the ASCII literals it is used with here
("important", "url") the two coincide. -/
def to_lower_ascii (c : Int) : Int :=
  if 0x41 ≤ c ∧ c ≤ 0x5A then c + 0x20 else c

def eq_fold (a b : List Int) : Bool :=
  a.map to_lower_ascii = b.map to_lower_ascii

/-- The code points of `"important"`. -/
def importantChars : List Int := [105, 109, 112, 111, 114, 116, 97, 110, 116]

/-- The backwards scan of `ends_with_important`: starting from
`len-1`, step left over `<whitespace-token>`s, stopping at the first
non-whitespace entry or at index 0 (the loop condition is `i > 0`, so
index 0 is never examined). -/
def ends_with_important_scan (list : List ComponentValue) : Nat → Nat
  | 0 => 0
  | i + 1 =>
    if (list.getD (i + 1) default).token.kind = .WHITESPACE_TOKEN then
      ends_with_important_scan list i
    else i + 1

/-- `ends_with_important`: true iff (after skipping trailing whitespace)
entry `i-1` is a `<delim-token>` `"!"` immediately followed at `i` by an
`<ident-token>` matching `"important"` case-insensitively, with the
guards `len ≥ 2` and `i ≥ 1` of the source. -/
def ends_with_important (list : List ComponentValue) : Bool :=
  if list.length < 2 then false
  else
    let i := ends_with_important_scan list (list.length - 1)
    if i < 1 then false
    else
      let second_last := list.getD (i - 1) default
      let last := list.getD i default
      if second_last.token.kind = .DELIM_TOKEN ∧
          second_last.token.value = [EXCLAMATON_MARK_CHAR] then
        decide (last.token.kind = .IDENT_TOKEN) && eq_fold last.token.value importantChars
      else false

/-- Step 7 of `consume_declaration`: while the last item of the value is
a `<whitespace-token>`, remove it (written as a reverse/dropWhile, which
is the same pop-last loop). -/
def strip_trailing_whitespace (l : List ComponentValue) : List ComponentValue :=
  (l.reverse.dropWhile (fun cv => decide (cv.token.kind = .WHITESPACE_TOKEN))).reverse

/-! Section: Parser: component values, simple blocks, functions, declarations

All loops and the mutual recursion are fuel-indexed; each call passes
`fuel` down decremented, `Res.oof` marking exhaustion.  The
fuel-sufficiency lemma below shows a linear fuel bound always suffices. -/

mutual

/-- `consume_component_value`: a simple block on `{`/`[`/`(`, a function
on `<function-token>`, otherwise the consumed token preserved.  (The
source wraps this in a `for` loop whose every branch returns, so it is a
single dispatch.) -/
def consume_component_value : Nat → TokenStream → Res (ComponentValue × TokenStream)
  | 0, _ => .oof
  | fuel + 1, ts =>
    let k := ts.next_token.kind
    if k = .OPEN_CURLY_TOKEN ∨ k = .OPEN_SQUARE_TOKEN ∨ k = .OPEN_PAREN_TOKEN then
      consume_simple_block fuel ts
    else if k = .FUNCTION_TOKEN then
      consume_function fuel ts
    else
      .ok (preservedCV (ts.consume_token).1, (ts.consume_token).2)

/-- `consume_simple_block`: asserts the next token is an opening bracket
(`Res.fatal` models the panic), takes the mirror as ending token, and
accumulates component values until the ending token or EOF. -/
def consume_simple_block : Nat → TokenStream → Res (ComponentValue × TokenStream)
  | 0, _ => .oof
  | fuel + 1, ts =>
    let next := ts.next_token
    if next.kind = .OPEN_CURLY_TOKEN ∨ next.kind = .OPEN_SQUARE_TOKEN ∨
        next.kind = .OPEN_PAREN_TOKEN then
      match mirror next.kind with
      | some ending_token =>
        match consume_value_items fuel ending_token ts.discard_token with
        | .ok (items, ts') => .ok (⟨.SIMPLE_BLOCK, next, [], items⟩, ts')
        | .fatal => .fatal
        | .oof => .oof
      | none => .fatal
    else .fatal

/-- `consume_function`: asserts the next token is a `<function-token>`
(panic otherwise), consumes it as the name, and accumulates component
values until `)` or EOF. -/
def consume_function : Nat → TokenStream → Res (ComponentValue × TokenStream)
  | 0, _ => .oof
  | fuel + 1, ts =>
    if ts.next_token.kind = .FUNCTION_TOKEN then
      match consume_value_items fuel .CLOSE_PAREN_TOKEN (ts.consume_token).2 with
      | .ok (items, ts') => .ok (⟨.FUNCTION, {}, (ts.consume_token).1.value, items⟩, ts')
      | .fatal => .fatal
      | .oof => .oof
    else .fatal

/-- The shared accumulation loop of `consume_simple_block` and
`consume_function` (their loops are textually identical up to the ending
token): on EOF or the ending token, discard it and return the items;
otherwise consume a component value, append, continue. -/
def consume_value_items : Nat → TokenKind → TokenStream →
    Res (List ComponentValue × TokenStream)
  | 0, _, _ => .oof
  | fuel + 1, ending_token, ts =>
    let k := ts.next_token.kind
    if k = .EOF_TOKEN ∨ k = ending_token then
      .ok ([], ts.discard_token)
    else
      match consume_component_value fuel ts with
      | .ok (c, ts1) =>
        match consume_value_items fuel ending_token ts1 with
        | .ok (items, ts2) => .ok (c :: items, ts2)
        | .fatal => .fatal
        | .oof => .oof
      | .fatal => .fatal
      | .oof => .oof

end

/-- `consume_component_value_list`: accumulate component values until
EOF or the stop token (left in place), treating `}` as a terminator when
`nested` and as a parse-error-but-consumed component value otherwise. -/
def consume_component_value_list : Nat → Bool → TokenKind → TokenStream →
    Res (List ComponentValue × TokenStream)
  | 0, _, _, _ => .oof
  | fuel + 1, nested, stop_token, ts =>
    let k := ts.next_token.kind
    if k = .EOF_TOKEN ∨ k = stop_token then
      .ok ([], ts)
    else if k = .CLOSE_CURLY_TOKEN ∧ nested then
      .ok ([], ts)
    else
      -- on an un-nested `}` this is a parse error, and the token is
      -- consumed as a component value exactly like the default branch
      match consume_component_value fuel ts with
      | .ok (c, ts1) =>
        match consume_component_value_list fuel nested stop_token ts1 with
        | .ok (values, ts2) => .ok (c :: values, ts2)
        | .fatal => .fatal
        | .oof => .oof
      | .fatal => .fatal
      | .oof => .oof

/-- `consume_bad_declaration_remnants`: discard component values until
`;`/EOF (consumed) or `}` (left for the caller when nested, discarded
and skipped otherwise). -/
def consume_bad_declaration_remnants : Nat → Bool → TokenStream → Res TokenStream
  | 0, _, _ => .oof
  | fuel + 1, nested, ts =>
    let k := ts.next_token.kind
    if k = .EOF_TOKEN ∨ k = .SEMICOLON_TOKEN then
      .ok ts.discard_token
    else if k = .CLOSE_CURLY_TOKEN then
      if nested then .ok ts
      else consume_bad_declaration_remnants fuel nested ts.discard_token
    else
      match consume_component_value fuel ts with
      | .ok (_, ts1) => consume_bad_declaration_remnants fuel nested ts1
      | .fatal => .fatal
      | .oof => .oof

/-- `consume_declaration(nested)`, steps 1–9 of the source, returning
`(declaration, ok)` plus the stream.  `Res.fatal` models the
unicode-range panic (dead, as `is_unicode_range` is constantly false). -/
def consume_declaration (fuel : Nat) (nested : Bool) (ts : TokenStream) :
    Res (Declaration × Bool × TokenStream) :=
  let decl : Declaration := {}
  -- 1. require a leading <ident-token> as the name
  if ts.next_token.kind = .IDENT_TOKEN then
    let decl := { decl with name := (ts.consume_token).1.value }
    let ts := (ts.consume_token).2
    -- 2. discard whitespace
    match TokenStream.discard_whitespace fuel ts with
    | .ok ts =>
      -- 3. require a <colon-token>
      if ts.next_token.kind = .COLON_TOKEN then
        let ts := ts.discard_token
        -- 4. discard whitespace
        match TokenStream.discard_whitespace fuel ts with
        | .ok ts =>
          -- 5. component-value list up to the <semicolon-token>
          match consume_component_value_list fuel nested .SEMICOLON_TOKEN ts with
          | .ok (value, ts) =>
            let decl := { decl with value := value }
            -- 6. strip `!important` (the last TWO LIST ITEMS are removed)
            let decl :=
              if ends_with_important decl.value then
                { decl with value := decl.value.take (decl.value.length - 2),
                            important := true }
              else decl
            -- 7. strip trailing whitespace
            let decl := { decl with value := strip_trailing_whitespace decl.value }
            -- 8. custom-property / top-level-block / unicode-range checks
            if is_custom_property_name decl.name then
              -- @TODO in the source: no action
              .ok (decl, decl.is_valid, ts)
            else if contains_non_empty_block decl.value then
              .ok (decl, false, ts)
            else if is_unicode_range decl.name then
              .fatal
            else
              -- 9. validity hook
              .ok (decl, decl.is_valid, ts)
          | .fatal => .fatal
          | .oof => .oof
        | .fatal => .fatal
        | .oof => .oof
      else
        match consume_bad_declaration_remnants fuel nested ts with
        | .ok ts => .ok (decl, false, ts)
        | .fatal => .fatal
        | .oof => .oof
    | .fatal => .fatal
    | .oof => .oof
  else
    match consume_bad_declaration_remnants fuel nested ts with
    | .ok ts => .ok (decl, false, ts)
    | .fatal => .fatal
    | .oof => .oof

/-! Section: Claims C1, C2 and C4 -/

/-- The token stream of `a:b !important ;` (note the whitespace between
`!important` and `;`). -/
def declTrailingWsInput : List Token :=
  [{ kind := .IDENT_TOKEN, value := [97] },
   { kind := .COLON_TOKEN },
   { kind := .IDENT_TOKEN, value := [98] },
   { kind := .WHITESPACE_TOKEN },
   { kind := .DELIM_TOKEN, value := [33] },
   { kind := .IDENT_TOKEN, value := importantChars },
   { kind := .WHITESPACE_TOKEN },
   { kind := .SEMICOLON_TOKEN }]

/-- C1 (code bug).  On `a:b !important ;` the consumed value list is
`[Ident "b", WS, Delim "!", Ident "important", WS]`; `ends_with_important`
holds, but step 6 drops the last two LIST ITEMS — here `Ident "important"`
and the trailing `<whitespace-token>` — rather than the `"!"`/`"important"`
pair, so the returned declaration has `important = true` yet still
contains the `Delim "!"` component value, contradicting the claim (and
the source's own step-6 comment) that exactly those two values are
removed and neither remains. -/
theorem consume_declaration_trailing_ws_keeps_bang :
    consume_declaration 50 true (NewTokenStream declTrailingWsInput) =
      .ok ({ name := [97],
             value := [preservedCV { kind := .IDENT_TOKEN, value := [98] },
                       preservedCV { kind := .WHITESPACE_TOKEN },
                       preservedCV { kind := .DELIM_TOKEN, value := [33] }],
             important := true },
           true,
           { tokens := declTrailingWsInput, index := 7,
             marked_indexes := ⟨[]⟩ }) := by
  decide

/-- The token stream of `a:!important;` — the `!important` tokens are
the entire declaration value. -/
def declBareImportantInput : List Token :=
  [{ kind := .IDENT_TOKEN, value := [97] },
   { kind := .COLON_TOKEN },
   { kind := .DELIM_TOKEN, value := [33] },
   { kind := .IDENT_TOKEN, value := importantChars },
   { kind := .SEMICOLON_TOKEN }]

/-- C2 (counterexample).  For a declaration whose value is exactly the
two tokens of `!important` (no preceding tokens), the code DOES strip
them: the returned declaration has `important = true` and an empty
value, refuting the claim that the tokens stay and `important` stays
false (`ends_with_important`'s guards `len ≥ 2` and `i ≥ 1` are both
satisfied by the two-element list itself). -/
theorem consume_declaration_bare_important_stripped :
    consume_declaration 50 true (NewTokenStream declBareImportantInput) =
      .ok ({ name := [97], value := [], important := true },
           true,
           { tokens := declBareImportantInput, index := 4,
             marked_indexes := ⟨[]⟩ }) := by
  decide

/-- C2 (amended).  When the value is exactly `Delim "!"` immediately
followed by `Ident "important"`, `consume_declaration` strips both and
sets `important`; only when a `<whitespace-token>` separates them (the
tokens of `! important`) does the match fail — the code requires the
delim and ident to be adjacent list entries — leaving the literal tokens
in the value with `important = false`.  (Shown at the declaration
`c:!important;` and its spaced variant `c:! important;`.) -/
theorem consume_declaration_important_adjacency :
    (consume_declaration 50 true (NewTokenStream
        [{ kind := .IDENT_TOKEN, value := [99] },
         { kind := .COLON_TOKEN },
         { kind := .DELIM_TOKEN, value := [33] },
         { kind := .IDENT_TOKEN, value := importantChars },
         { kind := .SEMICOLON_TOKEN }]) =
      .ok ({ name := [99], value := [], important := true },
           true,
           { tokens := [{ kind := .IDENT_TOKEN, value := [99] },
                        { kind := .COLON_TOKEN },
                        { kind := .DELIM_TOKEN, value := [33] },
                        { kind := .IDENT_TOKEN, value := importantChars },
                        { kind := .SEMICOLON_TOKEN }],
             index := 4, marked_indexes := ⟨[]⟩ })) ∧
    (consume_declaration 50 true (NewTokenStream
        [{ kind := .IDENT_TOKEN, value := [99] },
         { kind := .COLON_TOKEN },
         { kind := .DELIM_TOKEN, value := [33] },
         { kind := .WHITESPACE_TOKEN },
         { kind := .IDENT_TOKEN, value := importantChars },
         { kind := .SEMICOLON_TOKEN }]) =
      .ok ({ name := [99],
             value := [preservedCV { kind := .DELIM_TOKEN, value := [33] },
                       preservedCV { kind := .WHITESPACE_TOKEN },
                       preservedCV { kind := .IDENT_TOKEN, value := importantChars }],
             important := false },
           true,
           { tokens := [{ kind := .IDENT_TOKEN, value := [99] },
                        { kind := .COLON_TOKEN },
                        { kind := .DELIM_TOKEN, value := [33] },
                        { kind := .WHITESPACE_TOKEN },
                        { kind := .IDENT_TOKEN, value := importantChars },
                        { kind := .SEMICOLON_TOKEN }],
             index := 5, marked_indexes := ⟨[]⟩ })) := by
  exact ⟨by decide, by decide⟩

/-- The token stream of `a:{x} b;`: a top-level `{}` simple block mixed
with further non-whitespace content in a declaration value. -/
def declMixedBlockInput : List Token :=
  [{ kind := .IDENT_TOKEN, value := [97] },
   { kind := .COLON_TOKEN },
   { kind := .OPEN_CURLY_TOKEN },
   { kind := .IDENT_TOKEN, value := [120] },
   { kind := .CLOSE_CURLY_TOKEN },
   { kind := .WHITESPACE_TOKEN },
   { kind := .IDENT_TOKEN, value := [98] },
   { kind := .SEMICOLON_TOKEN }]

/-- C4 (counterexample).  A declaration whose value mixes a top-level
`{}` simple block with another non-whitespace component value IS
returned as a successful declaration (`ok = true`), because the check
`contains_non_empty_block` is an unimplemented stub that always reports
false — refuting the claim that such a declaration is never returned
successfully. -/
theorem consume_declaration_mixed_block_accepted :
    consume_declaration 50 true (NewTokenStream declMixedBlockInput) =
      .ok ({ name := [97],
             value := [⟨.SIMPLE_BLOCK, { kind := .OPEN_CURLY_TOKEN }, [],
                         [preservedCV { kind := .IDENT_TOKEN, value := [120] }]⟩,
                       preservedCV { kind := .WHITESPACE_TOKEN },
                       preservedCV { kind := .IDENT_TOKEN, value := [98] }],
             important := false },
           true,
           { tokens := declMixedBlockInput, index := 7,
             marked_indexes := ⟨[]⟩ }) := by
  decide

/-- C4 (amended).  The top-level-`{}`-block restriction is not enforced:
`contains_non_empty_block` is a constant-false stub, so
`consume_declaration` never fails for this reason, and a declaration
mixing a top-level `{}` block with other non-whitespace content is
returned successfully (shown at `c:{x} b;`). -/
theorem contains_non_empty_block_stub_mixed_block_ok :
    (∀ l : List ComponentValue, contains_non_empty_block l = false) ∧
      consume_declaration 50 true (NewTokenStream
          [{ kind := .IDENT_TOKEN, value := [99] },
           { kind := .COLON_TOKEN },
           { kind := .OPEN_CURLY_TOKEN },
           { kind := .IDENT_TOKEN, value := [120] },
           { kind := .CLOSE_CURLY_TOKEN },
           { kind := .WHITESPACE_TOKEN },
           { kind := .IDENT_TOKEN, value := [98] },
           { kind := .SEMICOLON_TOKEN }]) =
        .ok ({ name := [99],
               value := [⟨.SIMPLE_BLOCK, { kind := .OPEN_CURLY_TOKEN }, [],
                           [preservedCV { kind := .IDENT_TOKEN, value := [120] }]⟩,
                         preservedCV { kind := .WHITESPACE_TOKEN },
                         preservedCV { kind := .IDENT_TOKEN, value := [98] }],
               important := false },
             true,
             { tokens := [{ kind := .IDENT_TOKEN, value := [99] },
                          { kind := .COLON_TOKEN },
                          { kind := .OPEN_CURLY_TOKEN },
                          { kind := .IDENT_TOKEN, value := [120] },
                          { kind := .CLOSE_CURLY_TOKEN },
                          { kind := .WHITESPACE_TOKEN },
                          { kind := .IDENT_TOKEN, value := [98] },
                          { kind := .SEMICOLON_TOKEN }],
               index := 7, marked_indexes := ⟨[]⟩ }) :=
  ⟨fun _ => rfl, by decide⟩

/-! Section: Claim C8: termination and opener-correctness of simple blocks -/

/-- Tokens not yet consumed: the termination measure of the parser's
loops. -/
def remaining (ts : TokenStream) : Nat := ts.tokens.length - ts.index

lemma next_token_ne_eof_lt {ts : TokenStream} (h : ts.next_token.kind ≠ .EOF_TOKEN) :
    ts.index < ts.tokens.length := by
  by_contra hge
  push_neg at hge
  apply h
  unfold TokenStream.next_token
  rw [if_pos hge]
  rfl

lemma discard_token_ne_eof {ts : TokenStream} (h : ts.next_token.kind ≠ .EOF_TOKEN) :
    ts.discard_token = { ts with index := ts.index + 1 } := by
  unfold TokenStream.discard_token
  rw [if_neg]
  simp [TokenStream.empty, h]

lemma discard_token_index_le (ts : TokenStream) : ts.index ≤ ts.discard_token.index := by
  unfold TokenStream.discard_token
  split <;> simp

lemma discard_token_tokens (ts : TokenStream) : ts.discard_token.tokens = ts.tokens := by
  unfold TokenStream.discard_token
  split <;> rfl

/-- Linear fuel suffices for the component-value / simple-block /
function machinery, and each call advances the cursor: with fuel at
least thrice the remaining tokens plus a small constant, each function
returns `Res.ok` (never a panic, never out of fuel). -/
lemma parser_fuel_sufficient : ∀ fuel : Nat,
    (∀ ts : TokenStream, 3 * remaining ts + 2 ≤ fuel →
      ∃ c ts', consume_component_value fuel ts = .ok (c, ts') ∧
        ts.index < ts'.index ∧ ts'.tokens = ts.tokens) ∧
    (∀ ts : TokenStream,
      (ts.next_token.kind = .OPEN_CURLY_TOKEN ∨ ts.next_token.kind = .OPEN_SQUARE_TOKEN ∨
        ts.next_token.kind = .OPEN_PAREN_TOKEN) →
      3 * remaining ts + 1 ≤ fuel →
      ∃ items ts', consume_simple_block fuel ts =
          .ok (⟨.SIMPLE_BLOCK, ts.next_token, [], items⟩, ts') ∧
        ts.index < ts'.index ∧ ts'.tokens = ts.tokens) ∧
    (∀ ts : TokenStream, ts.next_token.kind = .FUNCTION_TOKEN →
      3 * remaining ts + 1 ≤ fuel →
      ∃ items ts', consume_function fuel ts =
          .ok (⟨.FUNCTION, {}, ts.next_token.value, items⟩, ts') ∧
        ts.index < ts'.index ∧ ts'.tokens = ts.tokens) ∧
    (∀ (ts : TokenStream) (ending : TokenKind), 3 * remaining ts + 3 ≤ fuel →
      ∃ items ts', consume_value_items fuel ending ts = .ok (items, ts') ∧
        ts.index ≤ ts'.index ∧ ts'.tokens = ts.tokens) := by
  intro fuel
  induction fuel with
  | zero => exact ⟨fun ts h => by omega, fun ts _ h => by omega,
      fun ts _ h => by omega, fun ts _ h => by omega⟩
  | succ n ih =>
    obtain ⟨ihcv, ihsb, ihfn, ihit⟩ := ih
    refine ⟨?_, ?_, ?_, ?_⟩
    · -- consume_component_value
      intro ts hf
      by_cases hbr : ts.next_token.kind = .OPEN_CURLY_TOKEN ∨
          ts.next_token.kind = .OPEN_SQUARE_TOKEN ∨ ts.next_token.kind = .OPEN_PAREN_TOKEN
      · obtain ⟨items, ts', hok, hidx, htk⟩ := ihsb ts hbr (by omega)
        refine ⟨⟨.SIMPLE_BLOCK, ts.next_token, [], items⟩, ts', ?_, hidx, htk⟩
        simp only [consume_component_value]
        rw [if_pos hbr]
        exact hok
      · by_cases hfn : ts.next_token.kind = .FUNCTION_TOKEN
        · obtain ⟨items, ts', hok, hidx, htk⟩ := ihfn ts hfn (by omega)
          refine ⟨⟨.FUNCTION, {}, ts.next_token.value, items⟩, ts', ?_, hidx, htk⟩
          simp only [consume_component_value]
          rw [if_neg hbr, if_pos hfn]
          exact hok
        · refine ⟨preservedCV (ts.consume_token).1, (ts.consume_token).2, ?_,
            by simp [TokenStream.consume_token], rfl⟩
          simp only [consume_component_value]
          rw [if_neg hbr, if_neg hfn]
    · -- consume_simple_block
      intro ts hbr hf
      have hne : ts.next_token.kind ≠ .EOF_TOKEN := by
        rcases hbr with h | h | h <;> simp [h]
      have hlt := next_token_ne_eof_lt hne
      have hdisc := discard_token_ne_eof hne
      obtain ⟨e, hmir⟩ : ∃ e, mirror ts.next_token.kind = some e := by
        rcases hbr with h | h | h <;> exact ⟨_, by rw [h]; rfl⟩
      have hrem1 : remaining ts.discard_token + 1 = remaining ts := by
        unfold remaining
        rw [hdisc]
        simp
        omega
      obtain ⟨items, ts', hok, hidx, htk⟩ := ihit ts.discard_token e (by omega)
      refine ⟨items, ts', ?_, ?_, ?_⟩
      · simp only [consume_simple_block]
        rw [if_pos hbr, hmir]
        dsimp only
        rw [hok]
      · have : ts.discard_token.index = ts.index + 1 := by rw [hdisc]
        omega
      · rw [htk, discard_token_tokens]
    · -- consume_function
      intro ts hfn hf
      have hne : ts.next_token.kind ≠ .EOF_TOKEN := by simp [hfn]
      have hlt := next_token_ne_eof_lt hne
      have hrem1 : remaining (ts.consume_token).2 + 1 = remaining ts := by
        unfold remaining TokenStream.consume_token
        simp
        omega
      obtain ⟨items, ts', hok, hidx, htk⟩ := ihit (ts.consume_token).2 .CLOSE_PAREN_TOKEN
        (by omega)
      refine ⟨items, ts', ?_, ?_, ?_⟩
      · simp only [consume_function]
        rw [if_pos hfn]
        rw [hok]
        rfl
      · have : (ts.consume_token).2.index = ts.index + 1 := rfl
        omega
      · exact htk
    · -- consume_value_items
      intro ts ending hf
      by_cases hstop : ts.next_token.kind = .EOF_TOKEN ∨ ts.next_token.kind = ending
      · refine ⟨[], ts.discard_token, ?_, discard_token_index_le ts, discard_token_tokens ts⟩
        simp only [consume_value_items]
        rw [if_pos hstop]
      · have hne : ts.next_token.kind ≠ .EOF_TOKEN := fun h => hstop (Or.inl h)
        have hlt := next_token_ne_eof_lt hne
        obtain ⟨c, ts1, hok1, hidx1, htk1⟩ := ihcv ts (by omega)
        have hrem1 : remaining ts1 < remaining ts := by
          unfold remaining
          rw [htk1]
          omega
        obtain ⟨items, ts2, hok2, hidx2, htk2⟩ := ihit ts1 ending (by omega)
        refine ⟨c :: items, ts2, ?_, by omega, htk2.trans htk1⟩
        simp only [consume_value_items]
        rw [if_neg hstop, hok1]
        dsimp only
        rw [hok2]

/-- C8 (confirmed).  For every token stream whose next token is an
opening bracket (`{`, `[` or `(`), `consume_simple_block` terminates
with an `ok` result under a linear fuel bound (it never panics and
never runs out), and the returned simple block's associated token is
exactly that opening bracket token.  The accumulation loop stops only on
the opener's mirror token or EOF; in particular a mismatched closing
bracket does not end the block but is absorbed as an item, demonstrated
on the stream `( ] )`, whose block has opener `(` and swallows the `]`
as a preserved token before closing at `)`. -/
theorem consume_simple_block_terminates_opener :
    (∀ ts : TokenStream,
      (ts.next_token.kind = .OPEN_CURLY_TOKEN ∨ ts.next_token.kind = .OPEN_SQUARE_TOKEN ∨
        ts.next_token.kind = .OPEN_PAREN_TOKEN) →
      ∃ items ts', consume_simple_block (3 * remaining ts + 1) ts =
        .ok (⟨.SIMPLE_BLOCK, ts.next_token, [], items⟩, ts')) ∧
    (consume_simple_block 10 (NewTokenStream
        [{ kind := .OPEN_PAREN_TOKEN }, { kind := .CLOSE_SQUARE_TOKEN },
         { kind := .CLOSE_PAREN_TOKEN }]) =
      .ok (⟨.SIMPLE_BLOCK, { kind := .OPEN_PAREN_TOKEN }, [],
             [preservedCV { kind := .CLOSE_SQUARE_TOKEN }]⟩,
           { tokens := [{ kind := .OPEN_PAREN_TOKEN }, { kind := .CLOSE_SQUARE_TOKEN },
                        { kind := .CLOSE_PAREN_TOKEN }],
             index := 3, marked_indexes := ⟨[]⟩ })) := by
  constructor
  · intro ts hbr
    obtain ⟨items, ts', hok, _, _⟩ :=
      (parser_fuel_sufficient (3 * remaining ts + 1)).2.1 ts hbr (le_refl _)
    exact ⟨items, ts', hok⟩
  · decide

/-- Witness for C8 at the one-token stream `[{]`: the block returns with
opener `{`. -/
theorem consume_simple_block_terminates_opener_witness :
    ∃ items ts',
      consume_simple_block
          (3 * remaining (NewTokenStream [{ kind := .OPEN_CURLY_TOKEN }]) + 1)
          (NewTokenStream [{ kind := .OPEN_CURLY_TOKEN }]) =
        .ok (⟨.SIMPLE_BLOCK, (NewTokenStream [{ kind := .OPEN_CURLY_TOKEN }]).next_token,
               [], items⟩, ts') :=
  consume_simple_block_terminates_opener.1 (NewTokenStream [{ kind := .OPEN_CURLY_TOKEN }])
    (Or.inl (by decide))

/-! Section: Tokenizer

The tokenizer keeps an index into the code-point list; `index = -1`
initially, `current_rune` is the code point at `index`, and any peek
outside the input is the EOF sentinel. -/

structure Tokenizer where
  input : List Int
  index : Int
  deriving DecidableEq, Repr

def NewTokenizer (input : List Int) : Tokenizer := { input := input, index := -1 }

/-- Absolute-position peek: the code point at position `idx`, or
`EOF_CHAR` out of bounds (`peek_rune`'s bounds check). -/
def peekAt (input : List Int) (idx : Int) : Int :=
  if idx < 0 ∨ (input.length : Int) ≤ idx then EOF_CHAR
  else input.getD idx.toNat EOF_CHAR

def Tokenizer.peek_rune (t : Tokenizer) (number : Int) : Int :=
  peekAt t.input (t.index + number)

def Tokenizer.current_rune (t : Tokenizer) : Int := t.peek_rune 0
def Tokenizer.next_rune (t : Tokenizer) : Int := t.peek_rune 1
def Tokenizer.second_rune (t : Tokenizer) : Int := t.peek_rune 2
def Tokenizer.third_rune (t : Tokenizer) : Int := t.peek_rune 3

/-- `consume_runes` advances the index (the Go method also returns the
new current rune; callers here read `current_rune` directly). -/
def Tokenizer.consume_runes (t : Tokenizer) (number : Int) : Tokenizer :=
  { t with index := t.index + number }

def Tokenizer.consume_next (t : Tokenizer) : Tokenizer := t.consume_runes 1

def Tokenizer.reconsume_current (t : Tokenizer) : Tokenizer := t.consume_runes (-1)

def Tokenizer.starts_with_valid_escape (t : Tokenizer) : Bool :=
  are_valid_escape t.current_rune t.next_rune

def Tokenizer.starts_with_ident (t : Tokenizer) : Bool :=
  are_start_ident t.current_rune t.next_rune t.second_rune

def Tokenizer.starts_with_number (t : Tokenizer) : Bool :=
  are_number t.current_rune t.next_rune t.second_rune

/-- Result bind (the Go code sequences calls; errors short-circuit). -/
def Res.bind {α β : Type} : Res α → (α → Res β) → Res β
  | .ok a, f => f a
  | .fatal, _ => .fatal
  | .oof, _ => .oof

/-- The inner loop of `consume_comments`: consume code points until the
first `*` followed by `/` (then consume two runes, as the source does),
or hit EOF — which is `log.Fatal`, modelled as `Res.fatal`. -/
def consume_comments_inner : Nat → Tokenizer → Res Tokenizer
  | 0, _ => .oof
  | fuel + 1, t =>
    let t1 := t.consume_next
    let char := t1.current_rune
    if char = ASTERISK_CHAR ∧ t1.next_rune = FORWARD_SLASH_CHAR then
      .ok (t1.consume_runes 2)
    else if char = EOF_CHAR then .fatal
    else consume_comments_inner fuel t1

/-- The outer loop of `consume_comments`: while the next two code points
are `/*`, consume them and run the inner loop. -/
def consume_comments_outer : Nat → Tokenizer → Res Tokenizer
  | 0, _ => .oof
  | fuel + 1, t =>
    if t.next_rune = FORWARD_SLASH_CHAR ∧ t.second_rune = ASTERISK_CHAR then
      match consume_comments_inner (fuel + 1) (t.consume_runes 2) with
      | .ok t' => consume_comments_outer fuel t'
      | .fatal => .fatal
      | .oof => .oof
    else .ok t

def Tokenizer.consume_comments (fuel : Nat) (t : Tokenizer) : Res Tokenizer :=
  consume_comments_outer fuel t

/-- Up-to-5 further hex digits of `consume_escaped` (the counter is the
source's loop bound, so this loop needs no fuel). -/
def consume_hex_digits : Nat → Tokenizer → List Int → List Int × Tokenizer
  | 0, t, digits => (digits, t)
  | count + 1, t, digits =>
    if is_hex_digit t.next_rune then
      let t1 := t.consume_next
      consume_hex_digits count t1 (digits ++ [t1.current_rune])
    else (digits, t)

def hex_digit_value (c : Int) : Int :=
  if 0x30 ≤ c ∧ c ≤ 0x39 then c - 0x30
  else if 0x41 ≤ c ∧ c ≤ 0x46 then c - 0x37
  else if 0x61 ≤ c ∧ c ≤ 0x66 then c - 0x57
  else 0

/-- Base-16 interpretation of the collected hex digits (the source's
`strconv.ParseInt(…, 16, 64)`, which cannot fail on 1–6 hex digits). -/
def parse_hex (digits : List Int) : Int :=
  digits.foldl (fun acc c => acc * 16 + hex_digit_value c) 0

/-- `consume_escaped`: assumes the `\` is consumed; consumes the escape
and returns the resulting code point.  The hex value is replaced by
U+FFFD when zero, a surrogate (`utf16.IsSurrogate`) or above the maximum
code point; EOF is a parse error yielding U+FFFD. -/
def Tokenizer.consume_escaped (t : Tokenizer) : Int × Tokenizer :=
  let t1 := t.consume_next
  let char := t1.current_rune
  if is_hex_digit char then
    let (digits, t2) := consume_hex_digits 5 t1 [char]
    let t3 := if is_whitespace t2.next_rune then t2.consume_next else t2
    let value := parse_hex digits
    if value = 0 ∨ (0xD800 ≤ value ∧ value ≤ 0xDFFF) ∨ value > MAX_CODE_POINT then
      (REPLACEMENT_CHAR, t3)
    else (value, t3)
  else if char = EOF_CHAR then (REPLACEMENT_CHAR, t1)
  else (t1.current_rune, t1)

/-- `consume_ident_sequence`, with the accumulated result as a
parameter (the Go code mutates a local). -/
def consume_ident_sequence : Nat → Tokenizer → List Int → Res (List Int × Tokenizer)
  | 0, _, _ => .oof
  | fuel + 1, t, result =>
    let t1 := t.consume_next
    let char := t1.current_rune
    if is_ident char then consume_ident_sequence fuel t1 (result ++ [char])
    else if t1.starts_with_valid_escape then
      let (r, t2) := t1.consume_escaped
      consume_ident_sequence fuel t2 (result ++ [r])
    else .ok (result, t1.reconsume_current)

/-- `consume_string_token(ending)`, with the accumulated string value as
a parameter.  EOF and the ending code point both return a
`<string-token>` with the partial value (EOF is a parse error); a bare
newline reconsumes and returns a `<bad-string-token>`; `\` before EOF is
ignored, before a newline consumes it, otherwise appends the escaped
code point. -/
def consume_string_token : Nat → Int → List Int → Tokenizer → Res (Token × Tokenizer)
  | 0, _, _, _ => .oof
  | fuel + 1, ending, acc, t =>
    let t1 := t.consume_next
    let char := t1.current_rune
    if char = ending then .ok ({ kind := .STRING_TOKEN, value := acc }, t1)
    else if char = EOF_CHAR then .ok ({ kind := .STRING_TOKEN, value := acc }, t1)
    else if is_newline char then .ok ({ kind := .BAD_STRING_TOKEN }, t1.reconsume_current)
    else if char = BACKWARD_SLASH_CHAR then
      if t1.next_rune ≠ EOF_CHAR then
        if is_newline t1.next_rune then consume_string_token fuel ending acc t1.consume_next
        else
          let (r, t2) := t1.consume_escaped
          consume_string_token fuel ending (acc ++ [r]) t2
      else consume_string_token fuel ending acc t1
    else consume_string_token fuel ending (acc ++ [char]) t1

/-- `consume_string_token` with the default ending: the current input
code point. -/
def Tokenizer.consume_string_token_default (fuel : Nat) (t : Tokenizer) :
    Res (Token × Tokenizer) :=
  consume_string_token fuel t.current_rune [] t

/-- The `while next is a digit, consume and append` loops of
`consume_number`. -/
def consume_digits : Nat → Tokenizer → List Int → Res (List Int × Tokenizer)
  | 0, _, _ => .oof
  | fuel + 1, t, part =>
    if is_digit t.next_rune then
      let t1 := t.consume_next
      consume_digits fuel t1 (part ++ [t1.current_rune])
    else .ok (part, t)

def digits_to_nat (ds : List Int) : Nat :=
  ds.foldl (fun acc c => acc * 10 + (c - 0x30).toNat) 0

/-- Base-10 interpretation of the number part (`strconv.ParseFloat`).
The grammar guarantees the shape `[sign] digits [. digits]`; the value
is computed exactly over `ℚ` (Go uses `float64`; no claim settled here
depends on its rounding). -/
def interpret_number_part (part : List Int) : ℚ :=
  let signed := part ≠ [] ∧ (part.headD 0 = HYPHEN_MINUS_CHAR ∨ part.headD 0 = PLUS_SIGN_CHAR)
  let neg := part.headD 0 = HYPHEN_MINUS_CHAR
  let rest := if signed then part.tail else part
  let int_digits := rest.takeWhile (fun c => is_digit c)
  let frac_digits := (rest.dropWhile (fun c => is_digit c)).tail
  let mag : ℚ := (digits_to_nat int_digits : ℚ) +
    (digits_to_nat frac_digits : ℚ) / ((10 : ℚ) ^ frac_digits.length)
  if neg then -mag else mag

/-- Base-10 interpretation of the exponent part (`strconv.ParseInt`);
the shape is `[sign] digits`. -/
def interpret_exponent (part : List Int) : Int :=
  let signed := part ≠ [] ∧ (part.headD 0 = HYPHEN_MINUS_CHAR ∨ part.headD 0 = PLUS_SIGN_CHAR)
  let neg := part.headD 0 = HYPHEN_MINUS_CHAR
  let ds := if signed then part.tail else part
  if neg then -(digits_to_nat ds : Int) else (digits_to_nat ds : Int)

/-- Step 6 of `consume_number`: the numeric value from the collected
number part and exponent part (`value * 10^exponent` when the exponent
part is non-empty). -/
def number_value (number_part exponent_part : List Int) : ℚ :=
  let value := interpret_number_part number_part
  if exponent_part.length > 0 then value * (10 : ℚ) ^ interpret_exponent exponent_part
  else value

/-- `consume_number`: returns the numeric value, the type flag and the
optional sign character. -/
def Tokenizer.consume_number (fuel : Nat) (t0 : Tokenizer) :
    Res ((ℚ × TypeFlag × List Int) × Tokenizer) :=
  -- 2. optional sign, appended to the number part
  let next := t0.next_rune
  let has_sign := next = PLUS_SIGN_CHAR ∨ next = HYPHEN_MINUS_CHAR
  let sign : List Int := if has_sign then [next] else []
  let t1 := if has_sign then t0.consume_next else t0
  -- 3. integer digits
  Res.bind (consume_digits fuel t1 sign) (fun r1 =>
    let number_part := r1.1
    let t2 := r1.2
    -- 4. optional fraction
    Res.bind
      (if t2.next_rune = FULL_STOP_CHAR ∧ is_digit t2.second_rune then
        let t3 := t2.consume_next
        Res.bind (consume_digits fuel t3 (number_part ++ [t3.current_rune])) (fun r2 =>
          .ok ((r2.1, TypeFlag.TYPE_NUMBER), r2.2))
      else .ok ((number_part, TypeFlag.TYPE_INTEGER), t2))
      (fun r3 =>
        let np := r3.1.1
        let tf := r3.1.2
        let t4 := r3.2
        -- 5. optional exponent
        let first := t4.next_rune
        let second := t4.second_rune
        let third := t4.third_rune
        let lookahead : Nat := if second = HYPHEN_MINUS_CHAR ∨ second = PLUS_SIGN_CHAR then 3 else 2
        if (first = UPPER_E_CHAR ∨ first = LOWER_E_CHAR) ∧
            ((lookahead = 2 ∧ is_digit second) ∨ (lookahead = 3 ∧ is_digit third)) then
          let t5 := t4.consume_next
          let has_esign := t5.next_rune = PLUS_SIGN_CHAR ∨ t5.next_rune = HYPHEN_MINUS_CHAR
          let ep0 : List Int := if has_esign then [t5.consume_next.current_rune] else []
          let t6 := if has_esign then t5.consume_next else t5
          Res.bind (consume_digits fuel t6 ep0) (fun r4 =>
            .ok ((number_value np r4.1, TypeFlag.TYPE_NUMBER, sign), r4.2))
        else .ok ((number_value np [], tf, sign), t4)))

/-- `consume_numeric_token`: a number then a dimension unit, a percent
sign, or a plain number token. -/
def Tokenizer.consume_numeric_token (fuel : Nat) (t : Tokenizer) : Res (Token × Tokenizer) :=
  Res.bind (t.consume_number fuel) (fun r =>
    let number := r.1.1
    let type_flag := r.1.2.1
    let sign := r.1.2.2
    let t1 := r.2
    if are_start_ident t1.next_rune t1.second_rune t1.third_rune then
      Res.bind (consume_ident_sequence fuel t1 []) (fun r2 =>
        .ok ({ kind := .DIMENSION_TOKEN, numeric := number, type_flag := type_flag,
               sign := sign, unit := r2.1 }, r2.2))
    else if t1.next_rune = PERCENT_SIGN_CHAR then
      .ok ({ kind := .PERCENTAGE_TOKEN, numeric := number }, t1.consume_next)
    else
      .ok ({ kind := .NUMBER_TOKEN, numeric := number, type_flag := type_flag,
             sign := sign }, t1))

/-- The `url` skip loop: while the next TWO code points are whitespace,
consume one. -/
def skip_double_whitespace : Nat → Tokenizer → Res Tokenizer
  | 0, _ => .oof
  | fuel + 1, t =>
    if is_whitespace t.next_rune ∧ is_whitespace t.second_rune then
      skip_double_whitespace fuel t.consume_next
    else .ok t

/-- A `while next is whitespace, consume` run. -/
def skip_whitespace : Nat → Tokenizer → Res Tokenizer
  | 0, _ => .oof
  | fuel + 1, t =>
    if is_whitespace t.next_rune then skip_whitespace fuel t.consume_next
    else .ok t

/-- `consume_bad_url_remnants`: discard until `)`/EOF, treating a valid
escape atomically. -/
def consume_bad_url_remnants : Nat → Tokenizer → Res Tokenizer
  | 0, _ => .oof
  | fuel + 1, t =>
    let t1 := t.consume_next
    let char := t1.current_rune
    if char = CLOSE_PAREN_CHAR ∨ char = EOF_CHAR then .ok t1
    else if t1.starts_with_valid_escape then
      consume_bad_url_remnants fuel (t1.consume_escaped).2
    else consume_bad_url_remnants fuel t1

/-- The accumulation loop of `consume_url_token` (steps 3 of the
source), with the collected value as a parameter. -/
def consume_url_loop : Nat → List Int → Tokenizer → Res (Token × Tokenizer)
  | 0, _, _ => .oof
  | fuel + 1, acc, t =>
    let t1 := t.consume_next
    let char := t1.current_rune
    if char = CLOSE_PAREN_CHAR then .ok ({ kind := .URL_TOKEN, value := acc }, t1)
    else if char = EOF_CHAR then .ok ({ kind := .URL_TOKEN, value := acc }, t1)
    else if is_whitespace char then
      Res.bind (skip_whitespace fuel t1) (fun t2 =>
        if t2.next_rune = CLOSE_PAREN_CHAR ∨ t2.next_rune = EOF_CHAR then
          .ok ({ kind := .URL_TOKEN, value := acc }, t2.consume_next)
        else
          Res.bind (consume_bad_url_remnants fuel t2) (fun t3 =>
            .ok ({ kind := .BAD_URL_TOKEN }, t3)))
    else if char = QUOTATION_MARK_CHAR ∨ char = APOSTROPHE_CHAR ∨ char = OPEN_PAREN_CHAR ∨
        is_non_printable char then
      Res.bind (consume_bad_url_remnants fuel t1) (fun t2 =>
        .ok ({ kind := .BAD_URL_TOKEN }, t2))
    else if char = BACKWARD_SLASH_CHAR then
      if t1.starts_with_valid_escape then
        let (r, t2) := t1.consume_escaped
        consume_url_loop fuel (acc ++ [r]) t2
      else
        Res.bind (consume_bad_url_remnants fuel t1) (fun t2 =>
          .ok ({ kind := .BAD_URL_TOKEN }, t2))
    else consume_url_loop fuel (acc ++ [char]) t1

/-- `consume_url_token`: skip leading whitespace, then the accumulation
loop. -/
def Tokenizer.consume_url_token (fuel : Nat) (t : Tokenizer) : Res (Token × Tokenizer) :=
  Res.bind (skip_whitespace fuel t) (fun t1 => consume_url_loop fuel [] t1)

/-- The code points of `"url"`. -/
def urlChars : List Int := [117, 114, 108]

/-- `consume_ident_like_token`: an ident sequence, then the
`url(`/function/ident dispatch of the source. -/
def Tokenizer.consume_ident_like_token (fuel : Nat) (t : Tokenizer) : Res (Token × Tokenizer) :=
  Res.bind (consume_ident_sequence fuel t []) (fun r =>
    let str := r.1
    let t1 := r.2
    if eq_fold str urlChars ∧ t1.next_rune = OPEN_PAREN_CHAR then
      Res.bind (skip_double_whitespace fuel t1.consume_next) (fun t3 =>
        let first := t3.next_rune
        let second := t3.second_rune
        if first = QUOTATION_MARK_CHAR ∨ first = APOSTROPHE_CHAR ∨
            (is_whitespace first ∧ (second = QUOTATION_MARK_CHAR ∨ second = APOSTROPHE_CHAR)) then
          .ok ({ kind := .FUNCTION_TOKEN, value := str }, t3)
        else t3.consume_url_token fuel)
    else if t1.next_rune = OPEN_PAREN_CHAR then
      .ok ({ kind := .FUNCTION_TOKEN, value := str }, t1.consume_next)
    else .ok ({ kind := .IDENT_TOKEN, value := str }, t1))

/-- `ConsumeToken`: skip comments, then dispatch on the next consumed
code point, in the source's case order.  `unicode_ranges_allowed` is the
constant false of the source, so the unicode-range fatal branch is
unreachable and the `u`/`U` case falls through to ident-like. -/
def Tokenizer.ConsumeToken (fuel : Nat) (t0 : Tokenizer) : Res (Token × Tokenizer) :=
  Res.bind (t0.consume_comments fuel) (fun t =>
    let t1 := t.consume_next
    let char := t1.current_rune
    if is_whitespace char then
      Res.bind (skip_whitespace fuel t1) (fun t2 => .ok ({ kind := .WHITESPACE_TOKEN }, t2))
    else if char = QUOTATION_MARK_CHAR then t1.consume_string_token_default fuel
    else if char = NUMBER_SIGN_CHAR then
      if is_ident t1.next_rune ∨ are_valid_escape t1.next_rune t1.second_rune then
        let flag := if are_start_ident t1.next_rune t1.second_rune t1.third_rune then
            HashFlag.HASH_ID else HashFlag.HASH_UNRESTRICTED
        Res.bind (consume_ident_sequence fuel t1 []) (fun r =>
          .ok ({ kind := .HASH_TOKEN, hash_flag := flag, value := r.1 }, r.2))
      else .ok ({ kind := .DELIM_TOKEN, value := [t1.current_rune] }, t1)
    else if char = APOSTROPHE_CHAR then t1.consume_string_token_default fuel
    else if char = OPEN_PAREN_CHAR then .ok ({ kind := .OPEN_PAREN_TOKEN }, t1)
    else if char = CLOSE_PAREN_CHAR then .ok ({ kind := .CLOSE_PAREN_TOKEN }, t1)
    else if char = PLUS_SIGN_CHAR then
      if t1.starts_with_number then t1.reconsume_current.consume_numeric_token fuel
      else .ok ({ kind := .DELIM_TOKEN, value := [char] }, t1)
    else if char = COMMA_CHAR then .ok ({ kind := .COMMA_TOKEN }, t1)
    else if char = HYPHEN_MINUS_CHAR then
      if t1.starts_with_number then t1.reconsume_current.consume_numeric_token fuel
      else if t1.next_rune = HYPHEN_MINUS_CHAR ∧ t1.second_rune = GREATER_THAN_CHAR then
        .ok ({ kind := .CDC_TOKEN }, t1.consume_runes 2)
      else if t1.starts_with_ident then t1.reconsume_current.consume_ident_like_token fuel
      else .ok ({ kind := .DELIM_TOKEN, value := [t1.current_rune] }, t1)
    else if char = FULL_STOP_CHAR then
      if t1.starts_with_number then t1.reconsume_current.consume_numeric_token fuel
      else .ok ({ kind := .DELIM_TOKEN, value := [t1.current_rune] }, t1)
    else if char = COLON_CHAR then .ok ({ kind := .COLON_TOKEN }, t1)
    else if char = SEMICOLON_CHAR then .ok ({ kind := .SEMICOLON_TOKEN }, t1)
    else if char = LESS_THAN_CHAR then
      if t1.next_rune = EXCLAMATON_MARK_CHAR ∧ t1.second_rune = HYPHEN_MINUS_CHAR ∧
          t1.third_rune = HYPHEN_MINUS_CHAR then
        .ok ({ kind := .CDO_TOKEN }, t1.consume_runes 3)
      else .ok ({ kind := .DELIM_TOKEN, value := [t1.current_rune] }, t1)
    else if char = AT_CHAR then
      if are_start_ident t1.next_rune t1.second_rune t1.third_rune then
        Res.bind (consume_ident_sequence fuel t1 []) (fun r =>
          .ok ({ kind := .AT_KEYWORD_TOKEN, value := r.1 }, r.2))
      else .ok ({ kind := .DELIM_TOKEN, value := [t1.current_rune] }, t1)
    else if char = OPEN_SQUARE_CHAR then .ok ({ kind := .OPEN_SQUARE_TOKEN }, t1)
    else if char = BACKWARD_SLASH_CHAR then
      if t1.starts_with_valid_escape then t1.reconsume_current.consume_ident_like_token fuel
      else .ok ({ kind := .DELIM_TOKEN, value := [t1.current_rune] }, t1)
    else if char = CLOSE_SQUARE_CHAR then .ok ({ kind := .CLOSE_SQUARE_TOKEN }, t1)
    else if char = OPEN_CURLY_CHAR then .ok ({ kind := .OPEN_CURLY_TOKEN }, t1)
    else if char = CLOSE_CURLY_CHAR then .ok ({ kind := .CLOSE_CURLY_TOKEN }, t1)
    else if is_digit char then t1.reconsume_current.consume_numeric_token fuel
    else if char = UPPER_U_CHAR ∨ char = LOWER_U_CHAR then
      t1.reconsume_current.consume_ident_like_token fuel
    else if is_ident_start char then t1.reconsume_current.consume_ident_like_token fuel
    else if char = EOF_CHAR then .ok ({ kind := .EOF_TOKEN }, t1)
    else .ok ({ kind := .DELIM_TOKEN, value := [t1.current_rune] }, t1))

/-- The `Tokenize` loop: consume tokens until an `<EOF-token>`, never
pushing the EOF token itself. -/
def Tokenize_loop : Nat → Nat → Tokenizer → Res (List Token)
  | 0, _, _ => .oof
  | outer + 1, fuel, t =>
    Res.bind (t.ConsumeToken fuel) (fun r =>
      if r.1.kind = .EOF_TOKEN then .ok []
      else Res.bind (Tokenize_loop outer fuel r.2) (fun tokens => .ok (r.1 :: tokens)))

def Tokenizer.Tokenize (fuel : Nat) (t : Tokenizer) : Res (List Token) :=
  Tokenize_loop fuel fuel t

/-! Section: Claim C3: EOF inside an unterminated comment is fatal -/

lemma peekAt_ne_eof {input : List Int} {idx : Int} (h : peekAt input idx ≠ EOF_CHAR) :
    0 ≤ idx ∧ idx < (input.length : Int) := by
  unfold peekAt at h
  split_ifs at h with hb
  · exact absurd rfl h
  · push_neg at hb
    omega

lemma consume_next_current (t : Tokenizer) :
    t.consume_next.current_rune = peekAt t.input (t.index + 1) := by
  simp [Tokenizer.consume_next, Tokenizer.consume_runes, Tokenizer.current_rune,
    Tokenizer.peek_rune]

lemma consume_next_next (t : Tokenizer) :
    t.consume_next.next_rune = peekAt t.input (t.index + 2) := by
  simp only [Tokenizer.consume_next, Tokenizer.consume_runes, Tokenizer.next_rune,
    Tokenizer.peek_rune]
  ring_nf

/-- No `*/` pair anywhere strictly after the current position. -/
def no_comment_close_from (t : Tokenizer) : Prop :=
  ∀ j : Int, t.index < j →
    ¬(peekAt t.input j = ASTERISK_CHAR ∧ peekAt t.input (j + 1) = FORWARD_SLASH_CHAR)

/-- If no `*/` lies ahead, the inner comment loop runs to EOF and hits
the `log.Fatal` (given enough fuel to reach the end of the input). -/
lemma consume_comments_inner_fatal :
    ∀ (fuel : Nat) (t : Tokenizer), no_comment_close_from t →
      ((t.input.length + 1 : Int) - t.index).toNat < fuel →
      consume_comments_inner fuel t = .fatal := by
  intro fuel
  induction fuel with
  | zero => intro t _ hb; omega
  | succ n ih =>
    intro t hnc hb
    simp only [consume_comments_inner]
    split_ifs with h1 h2
    · exfalso
      refine hnc (t.index + 1) (by omega) ⟨?_, ?_⟩
      · rw [← consume_next_current]; exact h1.1
      · have := h1.2
        rw [consume_next_next] at this
        have harith : t.index + 1 + 1 = t.index + 2 := by ring
        rw [harith]
        exact this
    · rfl
    · apply ih
      · intro j hj
        refine hnc j ?_
        have : t.consume_next.index = t.index + 1 := rfl
        omega
      · have hne : peekAt t.input (t.index + 1) ≠ EOF_CHAR := by
          rw [← consume_next_current]; exact h2
        have hbd := peekAt_ne_eof hne
        show ((t.input.length + 1 : Int) - (t.index + 1)).toNat < n
        omega

/-- C3 (amended).  Encountering EOF inside an unterminated comment is a
FATAL error, not a recoverable parse error: when the next two code
points open a comment (`/*`) and no `*/` occurs anywhere after, the
tokenizer's comment consumption aborts (`log.Fatal`, `Res.fatal`), so
nothing after it is tokenized and no best-effort result is produced. -/
theorem consume_comments_unterminated_fatal :
    ∀ (fuel : Nat) (t : Tokenizer),
      t.next_rune = FORWARD_SLASH_CHAR →
      t.second_rune = ASTERISK_CHAR →
      (∀ j : Int, t.index + 2 < j →
        ¬(peekAt t.input j = ASTERISK_CHAR ∧ peekAt t.input (j + 1) = FORWARD_SLASH_CHAR)) →
      ((t.input.length + 1 : Int) - (t.index + 2)).toNat < fuel →
      Tokenizer.consume_comments fuel t = .fatal := by
  intro fuel t h1 h2 hnc hb
  cases fuel with
  | zero => omega
  | succ n =>
    unfold Tokenizer.consume_comments consume_comments_outer
    rw [if_pos ⟨h1, h2⟩]
    have hin : consume_comments_inner (n + 1) (t.consume_runes 2) = .fatal := by
      apply consume_comments_inner_fatal
      · intro j hj
        refine hnc j ?_
        have : (t.consume_runes 2).index = t.index + 2 := rfl
        omega
      · exact hb
    rw [hin]

/-- Witness for C3's amended theorem at the input `/*` (a comment opened
at the start and never closed): consuming comments is fatal. -/
theorem consume_comments_unterminated_fatal_witness :
    Tokenizer.consume_comments 10 (NewTokenizer [47, 42]) = .fatal := by
  apply consume_comments_unterminated_fatal 10 (NewTokenizer [47, 42])
    (by decide) (by decide) ?_ (by decide)
  intro j hj hpair
  have ha := hpair.1
  unfold peekAt at ha
  simp only [NewTokenizer, List.length_cons, List.length_nil] at ha hj
  rw [if_pos (Or.inr (by omega))] at ha
  norm_num [EOF_CHAR, ASTERISK_CHAR] at ha

/-- C3 (counterexample).  Tokenizing `/* a` — a document whose comment
reaches EOF unterminated — does not continue and produce a best-effort
token list: the whole tokenization is aborted with the fatal marker. -/
theorem tokenize_unterminated_comment_aborts :
    Tokenizer.Tokenize 20 (NewTokenizer [47, 42, 32, 97]) = .fatal := by
  decide

/-! Section: Claim C9: EOF inside a string yields a partial String token -/

/-- No LF code point anywhere strictly after the current position. -/
def no_lf_ahead (t : Tokenizer) : Prop :=
  ∀ j : Int, t.index < j → peekAt t.input j ≠ LINE_FEED_CHAR

lemma no_lf_ahead_mono {t t' : Tokenizer} (hin : t'.input = t.input)
    (hidx : t.index ≤ t'.index) (h : no_lf_ahead t) : no_lf_ahead t' := by
  intro j hj
  rw [hin]
  exact h j (by omega)

lemma consume_hex_digits_mono :
    ∀ (count : Nat) (t : Tokenizer) (ds : List Int),
      (consume_hex_digits count t ds).2.input = t.input ∧
        t.index ≤ (consume_hex_digits count t ds).2.index := by
  intro count
  induction count with
  | zero => exact fun t ds => ⟨rfl, le_refl _⟩
  | succ n ih =>
    intro t ds
    simp only [consume_hex_digits]
    split_ifs with h
    · obtain ⟨hi, hm⟩ := ih t.consume_next (ds ++ [t.consume_next.current_rune])
      refine ⟨hi, ?_⟩
      have : t.consume_next.index = t.index + 1 := rfl
      omega
    · exact ⟨rfl, le_refl _⟩

lemma consume_escaped_mono (t : Tokenizer) :
    (t.consume_escaped).2.input = t.input ∧ t.index ≤ (t.consume_escaped).2.index := by
  unfold Tokenizer.consume_escaped
  have h5 := consume_hex_digits_mono 5 t.consume_next [t.consume_next.current_rune]
  rcases he : consume_hex_digits 5 t.consume_next [t.consume_next.current_rune] with ⟨ds, t2⟩
  rw [he] at h5
  have hidx : t.consume_next.index = t.index + 1 := rfl
  have hinp : t.consume_next.input = t.input := rfl
  simp only [hinp, hidx] at h5
  dsimp only
  rw [he]
  split_ifs <;>
    simp_all [Tokenizer.consume_next, Tokenizer.consume_runes] <;> omega

/-- If no LF lies ahead, `consume_string_token` can only produce a
`<string-token>` — never a `<bad-string-token>`, which requires an
unescaped newline (EOF instead ends the string as a parse error with
the partial value). -/
lemma consume_string_token_no_lf :
    ∀ (fuel : Nat) (ending : Int) (acc : List Int) (t : Tokenizer) (tk : Token)
      (t' : Tokenizer),
      no_lf_ahead t → consume_string_token fuel ending acc t = .ok (tk, t') →
      tk.kind = .STRING_TOKEN := by
  intro fuel
  induction fuel with
  | zero =>
    intro ending acc t tk t' _ h
    simp [consume_string_token] at h
  | succ n ih =>
    intro ending acc t tk t' hnl h
    simp only [consume_string_token] at h
    have hnl1 : no_lf_ahead t.consume_next :=
      @no_lf_ahead_mono t t.consume_next rfl (by
        have : t.consume_next.index = t.index + 1 := rfl
        omega) hnl
    split_ifs at h with h1 h2 h3 h4 h5 h6
    · simp only [Res.ok.injEq, Prod.mk.injEq] at h
      rw [← h.1]
    · simp only [Res.ok.injEq, Prod.mk.injEq] at h
      rw [← h.1]
    · exfalso
      have hlf : t.consume_next.current_rune = LINE_FEED_CHAR := by
        simpa [is_newline, LINE_FEED_CHAR] using h3
      rw [consume_next_current] at hlf
      exact hnl (t.index + 1) (by omega) hlf
    · -- backslash, next ≠ EOF, next is a newline: consume it, continue
      exact ih ending acc t.consume_next.consume_next tk t'
        (@no_lf_ahead_mono t t.consume_next.consume_next rfl (by
          have : t.consume_next.consume_next.index = t.index + 2 := by
            simp [Tokenizer.consume_next, Tokenizer.consume_runes]
            ring
          omega) hnl) h
    · -- backslash, next ≠ EOF, real escape
      have hesc := consume_escaped_mono t.consume_next
      rcases he : t.consume_next.consume_escaped with ⟨r, t2⟩
      rw [he] at h hesc
      have : t.consume_next.index = t.index + 1 := rfl
      exact ih ending (acc ++ [r]) t2 tk t'
        (@no_lf_ahead_mono t t2 (by simpa using hesc.1) (by simp at hesc; omega) hnl) h
    · -- backslash before EOF: do nothing, continue
      exact ih ending acc t.consume_next tk t' hnl1 h
    · -- anything else: append and continue
      exact ih ending (acc ++ [t.consume_next.current_rune]) t.consume_next tk t' hnl1 h

/-- C9 (confirmed).  Tokenizing `x: "unterminated` — EOF inside the
quoted string, no newline — produces a `<string-token>` with the partial
body `unterminated` (preceded by the Ident/Colon/Whitespace tokens), not
a BadString; and in general, when no raw LF lies ahead of the cursor,
`consume_string_token` can only return a STRING token, since the
BadString branch fires solely on an unescaped newline. -/
theorem tokenize_eof_in_string_partial :
    (Tokenizer.Tokenize 50 (NewTokenizer
        [120, 58, 32, 34, 117, 110, 116, 101, 114, 109, 105, 110, 97, 116, 101, 100]) =
      .ok [{ kind := .IDENT_TOKEN, value := [120] },
           { kind := .COLON_TOKEN },
           { kind := .WHITESPACE_TOKEN },
           { kind := .STRING_TOKEN,
             value := [117, 110, 116, 101, 114, 109, 105, 110, 97, 116, 101, 100] }]) ∧
    (∀ (fuel : Nat) (ending : Int) (acc : List Int) (t : Tokenizer) (tk : Token)
      (t' : Tokenizer),
      no_lf_ahead t → consume_string_token fuel ending acc t = .ok (tk, t') →
      tk.kind = .STRING_TOKEN) :=
  ⟨by decide, consume_string_token_no_lf⟩

/-- Witness for C9's general part at the two-code-point input `"a` (the
quote already consumed, EOF ends the string): the token is a STRING
token. -/
theorem tokenize_eof_in_string_partial_witness :
    ({ kind := TokenKind.STRING_TOKEN, value := [97] } : Token).kind =
      TokenKind.STRING_TOKEN := by
  refine tokenize_eof_in_string_partial.2 10 34 [] ⟨[34, 97], 0⟩ _ ⟨[34, 97], 2⟩ ?_ (by decide)
  intro j hj
  have hj0 : (0 : Int) < j := hj
  unfold peekAt
  simp only [List.length_cons, List.length_nil]
  split_ifs with h
  · norm_num [EOF_CHAR, LINE_FEED_CHAR]
  · push_neg at h
    have hj1 : j = 1 := by omega
    subst hj1
    decide

end CssParser
